import Mathlib

/-!
Verification of the wallet-inspection script (src/alchemy.mts) against its
natural-language specification.  The TypeScript source is shallowly embedded:
JavaScript scalar values become the inductive `Value`, JS objects holding NFT
metadata become `NftMetadata` (an ordered association list of string-keyed
fields plus the reserved `attributes` list), and JS runtime faults (a
`TypeError` from reading a property of `undefined`) are modelled with
`Except Unit`.  All definitions are executable.
-/

namespace Alchemy

/-- A JavaScript scalar value as it occurs in NFT metadata records: strings,
numbers (restricted to integers, which covers every value the script
manipulates), booleans, `null`, `undefined`, and `NaN`.  Objects and arrays
other than the reserved `attributes` list are outside the model. -/
inductive Value where
  | str (s : String)
  | num (n : Int)
  | bool (b : Bool)
  | null
  | undefined
  | nan
deriving DecidableEq, Repr

/-- JavaScript `toLowerCase()` on the ASCII strings the script handles,
implemented over the character list so that it evaluates inside the
kernel. -/
def lowerStr (s : String) : String := String.mk (s.data.map Char.toLower)

/-- Decimal digit-string parsing: `some` of the value for a non-empty
all-digit character list, `none` otherwise. -/
def decDigits (cs : List Char) : Option Nat :=
  if cs ≠ [] ∧ cs.all Char.isDigit then
    some (cs.foldl (fun a c => a * 10 + (c.toNat - 48)) 0)
  else none

/-- JavaScript `Number(string)` restricted to optional-sign decimal digit
strings (the only numeric strings the script's data carries): `""` converts
to `0`, `"123"`/`"-123"` convert to the evident integer, and any other string
is `NaN`, modelled as `none`. -/
def strToNumInt (s : String) : Option Int :=
  match s.data with
  | [] => some 0
  | '-' :: rest => (decDigits rest).map (fun n => -(n : Int))
  | cs => (decDigits cs).map (fun n => (n : Int))

/-- Decimal rendering of a natural number. -/
def natToStr (n : Nat) : String := String.mk (Nat.toDigits 10 n)

/-- JavaScript `toString()` on an integer number: decimal digits with a
leading minus sign for negatives. -/
def intToStr (i : Int) : String :=
  if i < 0 then String.mk ('-' :: Nat.toDigits 10 i.natAbs) else natToStr i.natAbs

/-- JavaScript strict equality `===` on scalar values: same kind and same
payload, with `null` and `undefined` distinct and `NaN` unequal to
everything, itself included. -/
def strictEq : Value → Value → Bool
  | .str a, .str b => a == b
  | .num a, .num b => a == b
  | .bool a, .bool b => a == b
  | .null, .null => true
  | .undefined, .undefined => true
  | _, _ => false

/-- JavaScript loose equality `==` on scalar values: `null == undefined`,
string/number comparison after numeric conversion of the string, booleans
converted to `0`/`1` first, and `NaN` equal to nothing. -/
def looseEq : Value → Value → Bool
  | .str a, .str b => a == b
  | .num a, .num b => a == b
  | .bool a, .bool b => a == b
  | .null, .null => true
  | .undefined, .undefined => true
  | .null, .undefined => true
  | .undefined, .null => true
  | .num a, .str s => (match strToNumInt s with | some b => a == b | none => false)
  | .str s, .num a => (match strToNumInt s with | some b => b == a | none => false)
  | .bool a, .num b => ((if a then 1 else 0 : Int) == b)
  | .num a, .bool b => (a == (if b then 1 else 0 : Int))
  | .bool a, .str s =>
      (match strToNumInt s with | some b => (if a then 1 else 0 : Int) == b | none => false)
  | .str s, .bool a =>
      (match strToNumInt s with | some b => b == (if a then 1 else 0 : Int) | none => false)
  | _, _ => false

/-- JavaScript truthiness of a scalar value (`if (v)`): `""`, `0`, `false`,
`null`, `undefined` and `NaN` are falsy, everything else is truthy. -/
def jsTruthy : Value → Bool
  | .str s => s != ""
  | .num n => n != 0
  | .bool b => b
  | .null => false
  | .undefined => false
  | .nan => false

/-- JavaScript `toString()` on a scalar value.  The script only applies it to
truthy values, for which this is exact; `null`/`undefined` would throw in JS
and are given placeholder results that no guarded code path reaches. -/
def jsToStr : Value → String
  | .str s => s
  | .num n => intToStr n
  | .bool b => if b then "true" else "false"
  | .nan => "NaN"
  | .null => "null"
  | .undefined => "undefined"

/-- JavaScript `Number(string)` as a `Value`: `NaN` when the string does not
parse (see `strToNumInt`). -/
def jsNumber (s : String) : Value :=
  match strToNumInt s with
  | some n => .num n
  | none => .nan

/-- One `{trait_type, value}` pair from an NFT metadata `attributes` list. -/
structure NftAttr where
  trait_type : String
  value : Value
deriving DecidableEq, Repr

/-- An NFT metadata record (or a partial filter record): the ordered
string-keyed scalar fields of the JS object (keys are unique, insertion
order preserved, and never the key `"attributes"`, which is modelled
separately), plus the optional `attributes` list. -/
structure NftMetadata where
  fields : List (String × Value)
  attributes : Option (List NftAttr)
deriving DecidableEq, Repr

/-- JS property read `m[k]` on a metadata record: the value of the field
named exactly `k`, or `undefined` when no such field exists. -/
def jsGet (m : NftMetadata) (k : String) : Value :=
  match m.fields.find? (fun kv => kv.1 == k) with
  | some kv => kv.2
  | none => .undefined

/-- The `nestedAttrs[key]` lookup of src/alchemy.mts lines 70–73: the map is
built by assigning `nestedAttrs[attr.trait_type.toLowerCase()] = attr.value`
over the record's attributes in order, so the value stored under `k` is the
value of the LAST attribute whose lowercased trait name is `k`; a missing
key reads as `undefined`. -/
def nestedLookup (attrs : List NftAttr) (k : String) : Value :=
  match attrs.reverse.find? (fun a => lowerStr a.trait_type == k) with
  | some a => a.value
  | none => .undefined

/-- `Object.entries(filterMetadata).filter(([k, _]) => k !== "attributes")`
(src/alchemy.mts lines 37–39). -/
def topLevel (fm : NftMetadata) : List (String × Value) :=
  fm.fields.filter (fun kv => kv.1 != "attributes")

/-- The top-level comparison loop of src/alchemy.mts lines 42–46 run against
a possibly-absent record: for each filter entry `(k, v)` it reads
`nftMetadata[k.toLowerCase()]`, which throws a `TypeError` (modelled as
`.error ()`) when the record is `undefined`, and returns `false` on the
first strict inequality. -/
def topLevelCheck (nftMd : Option NftMetadata) : List (String × Value) → Except Unit Bool
  | [] => .ok true
  | (k, v) :: rest =>
    match nftMd with
    | none => .error ()
    | some r =>
      if strictEq (jsGet r (lowerStr k)) v then topLevelCheck nftMd rest
      else .ok false

/-- The same loop specialised to a present record, where it cannot throw. -/
def topLevelCheckP (r : NftMetadata) : List (String × Value) → Bool
  | [] => true
  | (k, v) :: rest =>
    if strictEq (jsGet r (lowerStr k)) v then topLevelCheckP r rest
    else false

/-- The nested-attribute loop of src/alchemy.mts lines 74–81: every filter
attribute's value must compare loosely equal (`!=` negated) to the map entry
under its lowercased trait name. -/
def attrsCheck (ra : List NftAttr) (fa : List NftAttr) : Bool :=
  fa.all (fun a => looseEq (nestedLookup ra (lowerStr a.trait_type)) a.value)

/-- Lines 60–83 of src/alchemy.mts: the sanity check `if (!nftMetadata)
return false`, then the nested-attribute comparison when both attribute
lists are present, else `true`. -/
def afterGuard (nftMd : Option NftMetadata) (fm : NftMetadata) : Except Unit Bool :=
  match nftMd with
  | none => .ok false
  | some r =>
    match r.attributes, fm.attributes with
    | some ra, some fa => .ok (attrsCheck ra fa)
    | _, _ => .ok true

/-- `filterNFTMetadata` (src/alchemy.mts lines 28–84).  The record and the
filter may each be absent (`undefined`); `!filterMetadata` catches only an
absent filter (an empty object is truthy in JS).  Reading a property of an
absent record in the top-level loop faults, modelled as `.error ()`. -/
def filterNFTMetadata (nftMd : Option NftMetadata) (fMd : Option NftMetadata) :
    Except Unit Bool :=
  match fMd with
  | none => .ok true
  | some fm =>
    match topLevelCheck nftMd (topLevel fm) with
    | .error e => .error e
    | .ok false => .ok false
    | .ok true =>
      match fm.attributes with
      | some fa =>
        if fa.length > 0 then
          match nftMd with
          | none => .ok false
          | some r =>
            match r.attributes with
            | none => .ok false
            | some ra =>
              if fa.length > ra.length then .ok false
              else afterGuard nftMd fm
        else afterGuard nftMd fm
      | none => afterGuard nftMd fm

/-- The whole matcher specialised to a present record, where no code path
can throw; `filterNFTMetadata_some` proves the agreement. -/
def filterNFTMetadataP (r : NftMetadata) (fm : NftMetadata) : Bool :=
  if topLevelCheckP r (topLevel fm) then
    match fm.attributes with
    | none => true
    | some fa =>
      if fa.length > 0 then
        match r.attributes with
        | none => false
        | some ra =>
          if fa.length > ra.length then false
          else attrsCheck ra fa
      else true
  else false

theorem topLevelCheck_some (r : NftMetadata) :
    ∀ l, topLevelCheck (some r) l = .ok (topLevelCheckP r l) := by
  intro l
  induction l with
  | nil => rfl
  | cons kv rest ih =>
    obtain ⟨k, v⟩ := kv
    simp only [topLevelCheck, topLevelCheckP]
    split <;> simp [ih]

theorem attrsCheck_nil (ra : List NftAttr) : attrsCheck ra [] = true := rfl

theorem filterNFTMetadata_some (r : NftMetadata) (fm : NftMetadata) :
    filterNFTMetadata (some r) (some fm) = .ok (filterNFTMetadataP r fm) := by
  simp only [filterNFTMetadata, filterNFTMetadataP, topLevelCheck_some]
  cases h : topLevelCheckP r (topLevel fm) with
  | false => simp
  | true =>
    simp only [if_true]
    cases hfa : fm.attributes with
    | none =>
      cases hra : r.attributes <;> simp [afterGuard, hfa, hra]
    | some fa =>
      cases fa with
      | nil =>
        cases hra : r.attributes <;> simp [afterGuard, hfa, hra, attrsCheck_nil]
      | cons a fas =>
        simp only [List.length_cons]
        cases hra : r.attributes with
        | none => simp
        | some ra =>
          by_cases hlen : fas.length + 1 > ra.length
          · simp [hlen]
          · simp [hlen, afterGuard, hra, hfa]

/-! ## ERC20 token balance check (src/alchemy.mts lines 87–110) -/

/-- `getTokenMetadata` response: `decimals : number | null`. -/
structure TokenMetadataResponse where
  decimals : Option Int
deriving DecidableEq, Repr

/-- One entry of the `getTokenBalances` response: `tokenBalance` is a numeric
string or `null`. -/
structure TokenBalanceEntry where
  contractAddress : String
  tokenBalance : Option String
deriving DecidableEq, Repr

structure TokenAmount where
  balance : Int
  decimals : Int
deriving DecidableEq, Repr

/-- Truthiness of the `tokenBalance` field (`null` and `""` are falsy). -/
def tokenBalTruthy : Option String → Bool
  | some s => s != ""
  | none => false

/-- Truthiness of `metadata.decimals` (`null` and `0` are falsy). -/
def decTruthy : Option Int → Bool
  | some d => d != 0
  | none => false

/-- JavaScript `BigInt(string)` restricted to the strings the service
returns: `"0x"`-prefixed hexadecimal or plain decimal digits; other strings
(which would throw in JS) fall back to `0` and are never used in theorems. -/
def hexVal (c : Char) : Option Nat :=
  if c.isDigit then some (c.toNat - 48)
  else if 'a' ≤ c && c ≤ 'f' then some (c.toNat - 87)
  else if 'A' ≤ c && c ≤ 'F' then some (c.toNat - 55)
  else none

def jsBigInt (s : String) : Int :=
  match s.data with
  | '0' :: 'x' :: rest =>
    ((rest.foldl (fun acc c => acc.bind (fun n => (hexVal c).map (fun d => n * 16 + d)))
      (some 0)).getD 0 : Nat)
  | _ => (strToNumInt s).getD 0

/-- The `for (const tokenBalance of result.tokenBalances)` loop of
src/alchemy.mts lines 96–109: return the first entry whose contract address
equals the query address and whose balance and the metadata's decimals are
both truthy; `{0, 0}` when the loop completes. -/
def erc20Loop (contractAddress : String) (decimals : Option Int) :
    List TokenBalanceEntry → TokenAmount
  | [] => ⟨0, 0⟩
  | tb :: rest =>
    if tb.contractAddress == contractAddress
        && tokenBalTruthy tb.tokenBalance
        && decTruthy decimals then
      ⟨jsBigInt (tb.tokenBalance.getD ""), decimals.getD 0⟩
    else erc20Loop contractAddress decimals rest

/-- `erc20` (src/alchemy.mts lines 87–110), with the service responses
(`getTokenMetadata`, `getTokenBalances`) passed in as data.  An absent
(`undefined`/`null`) wallet address is reported as `{0, 0}` up front. -/
def erc20 (walletAddress : Option String) (contractAddress : String)
    (metadata : TokenMetadataResponse) (tokenBalances : List TokenBalanceEntry) :
    TokenAmount :=
  match walletAddress with
  | none => ⟨0, 0⟩
  | some _ => erc20Loop contractAddress metadata.decimals tokenBalances

/-! ## Cursor pagination (src/alchemy.mts lines 150–169) -/

/-- One `getAssetTransfers` response: a page of items plus an optional
continuation `pageKey`. -/
structure TransfersPage (T : Type) where
  transfers : List T
  pageKey : Option String
deriving DecidableEq, Repr

/-- The `while (response.pageKey)` loop of src/alchemy.mts lines 162–169,
with `fetch` abstracting `alchemy.core.getAssetTransfers` applied to the
fixed transaction config plus the varying `pageKey`.  Alongside the
accumulated transfers the model records the `pageKey` argument of every
fetch issued, so invocation counts and arguments can be stated.  The JS
loop has no built-in bound, so the model takes fuel; exhausting it (a
source that never stops issuing cursors) yields `none`. -/
def drainGo {T : Type} (fetch : Option String → TransfersPage T) :
    Nat → TransfersPage T → List T → List (Option String) →
    Option (List T × List (Option String))
  | fuel, response, transfers, calls =>
    match response.pageKey with
    | none => some (transfers, calls)
    | some pageKey =>
      match fuel with
      | 0 => none
      | Nat.succ fuel' =>
        let response' := fetch (some pageKey)
        drainGo fetch fuel' response' (transfers ++ response'.transfers)
          (calls ++ [some pageKey])

/-- Lines 158–169 of src/alchemy.mts: the initial fetch (no `pageKey`)
followed by the drain loop. -/
def drainTransfers {T : Type} (fetch : Option String → TransfersPage T)
    (fuel : Nat) : Option (List T × List (Option String)) :=
  let response := fetch none
  drainGo fetch fuel response response.transfers [none]

/-- `Serves fetch q pages`: starting from cursor argument `q`, the source
`fetch` yields exactly the given finite page sequence — each page but the
last carries the cursor under which `fetch` returns the following page, and
the last page carries no cursor. -/
inductive Serves {T : Type} (fetch : Option String → TransfersPage T) :
    Option String → List (TransfersPage T) → Prop
  | last {q p} : fetch q = p → p.pageKey = none → Serves fetch q [p]
  | cons {q p k ps} : fetch q = p → p.pageKey = some k →
      Serves fetch (some k) ps → Serves fetch q (p :: ps)

theorem Serves.ne_nil {T : Type} {fetch : Option String → TransfersPage T}
    {q : Option String} {ps : List (TransfersPage T)}
    (h : Serves fetch q ps) : ps ≠ [] := by
  cases h <;> simp

/-! ## Deployment history (src/alchemy.mts lines 173–192) -/

/-- A `getAssetTransfers` item, restricted to the fields the flow reads
(`to`, which is `null` for contract creations, and `hash`).  `from` is a
Lean keyword, hence `fromAddr`/`toAddr` for the `from`/`to` fields. -/
structure AssetTransfer where
  fromAddr : String
  toAddr : Option String
  hash : String
deriving DecidableEq, Repr

/-- A `getTransactionReceipt` response. -/
structure TxReceipt where
  transactionHash : String
deriving DecidableEq, Repr

/-- One element of the returned `txns` list: `{from: walletAddress, to:
null, hash: receipt?.transactionHash, value: 0n}`; `hash` is `none` when
the receipt was absent (`receipt?.` short-circuit). -/
structure DeploymentTxn where
  fromAddr : String
  toAddr : Option String
  hash : Option String
  value : Int
deriving DecidableEq, Repr

/-- Lines 173–192 of src/alchemy.mts applied to an already-drained transfer
list: filter to `transfer.to === null`, map to hashes, fetch each receipt
(`Promise.all` keeps the results in request order, so the fetch is a map),
and build the result records. -/
def deploymentTxns (walletAddress : String) (getReceipt : String → Option TxReceipt)
    (transfers : List AssetTransfer) : List DeploymentTxn :=
  let deployments := transfers.filter (fun transfer => transfer.toAddr.isNone)
  let txHashes := deployments.map (fun deployment => deployment.hash)
  let txReceipts := txHashes.map getReceipt
  txReceipts.map (fun receipt =>
    ⟨walletAddress, none, receipt.map (fun r => r.transactionHash), 0⟩)

/-- The whole `contractDeploymentTransactions` flow (src/alchemy.mts lines
145–193): drain all transfer pages, then build the deployment records. -/
def contractDeploymentTransactions (walletAddress : String)
    (fetch : Option String → TransfersPage AssetTransfer)
    (getReceipt : String → Option TxReceipt) (fuel : Nat) :
    Option (List DeploymentTxn) :=
  (drainTransfers fetch fuel).map
    (fun res => deploymentTxns walletAddress getReceipt res.1)

/-! ## NFT inventory (src/alchemy.mts lines 196–254) -/

/-- One entry of the `getNftsForOwner` response, restricted to the fields
the flow reads: `tokenId` and `balance` are strings, `tokenType` an enum
string, and `raw.metadata` the possibly-absent metadata record. -/
structure OwnedNft where
  tokenId : String
  balance : String
  tokenType : String
  rawMetadata : Option NftMetadata
deriving DecidableEq, Repr

/-- The accumulated `output` object: aggregate balance plus the collected
metadata records in iteration order. -/
structure NftOutput where
  balance : Int
  nftData : List NftMetadata
deriving DecidableEq, Repr

/-- JS object field assignment `{...md, k: v}`: replace the value in place
when the key already exists, append otherwise. -/
def jsSetField (fields : List (String × Value)) (k : String) (v : Value) :
    List (String × Value) :=
  if fields.any (fun kv => kv.1 == k) then
    fields.map (fun kv => if kv.1 == k then (k, v) else kv)
  else fields ++ [(k, v)]

/-- The record pushed to `output.nftData` (src/alchemy.mts lines 241–245):
the NFT's raw metadata with `tokenId` overwritten by `Number(nft.tokenId)`
and `tokenType` by the NFT's token type. -/
def pushedRecord (n : OwnedNft) (md : NftMetadata) : NftMetadata :=
  { fields :=
      jsSetField (jsSetField md.fields "tokenId" (jsNumber n.tokenId))
        "tokenType" (.str n.tokenType),
    attributes := md.attributes }

/-- One iteration of the `for (const nft of result.ownedNfts)` loop
(src/alchemy.mts lines 217–248).  The metadata matcher runs only when both
the filter and `nft.raw.metadata` are truthy (line 220); the unguarded read
`nftMetadata.tokenId` at line 225 faults when the filter is absent; a
balance that is `NaN` after numeric coercion is only logged (line 236); the
metadata record is pushed whenever it is present (line 240), regardless of
the balance coercion. -/
def nftStep (filter : Option NftMetadata) (out : NftOutput) (n : OwnedNft) :
    Except Unit NftOutput :=
  let step1 : Except Unit Bool :=
    if filter.isSome && n.rawMetadata.isSome then
      (filterNFTMetadata n.rawMetadata filter).map (fun b => true && b)
    else .ok true
  match step1 with
  | .error e => .error e
  | .ok m1 =>
    match filter with
    | none => .error ()
    | some f =>
      let tid := jsGet f "tokenId"
      let m2 := if jsTruthy tid then m1 && (n.tokenId == jsToStr tid) else m1
      if m2 then
        let out1 :=
          match strToNumInt n.balance with
          | none => out
          | some v => { out with balance := out.balance + v }
        match n.rawMetadata with
        | some md => .ok { out1 with nftData := out1.nftData ++ [pushedRecord n md] }
        | none => .ok out1
      else .ok out

/-- The `nft` flow (src/alchemy.mts lines 196–254) applied to a service
response `ownedNfts`: an absent wallet short-circuits to `{0, []}`,
otherwise the per-NFT loop runs over the owned NFTs in order. -/
def nftFlow (walletAddress : Option String) (ownedNfts : List OwnedNft)
    (filter : Option NftMetadata) : Except Unit NftOutput :=
  match walletAddress with
  | none => .ok ⟨0, []⟩
  | some _ => ownedNfts.foldlM (nftStep filter) ⟨0, []⟩

/-- The match decision of one loop iteration for a present filter, as a
plain boolean (the matcher cannot fault when it is only invoked with a
present record; see `filterNFTMetadata_some`). -/
def nftMatchB (f : NftMetadata) (n : OwnedNft) : Bool :=
  let m1 :=
    match n.rawMetadata with
    | some md => filterNFTMetadataP md f
    | none => true
  let tid := jsGet f "tokenId"
  if jsTruthy tid then m1 && (n.tokenId == jsToStr tid) else m1

/-- The state update applied when an NFT matches: add the coerced balance
unless it is `NaN`, and append the pushed record when raw metadata is
present. -/
def applyMatch (out : NftOutput) (n : OwnedNft) : NftOutput :=
  let out1 :=
    match strToNumInt n.balance with
    | none => out
    | some v => { out with balance := out.balance + v }
  match n.rawMetadata with
  | some md => { out1 with nftData := out1.nftData ++ [pushedRecord n md] }
  | none => out1

/-- With a present filter, one loop iteration never faults and reduces to
the boolean match decision followed by the state update. -/
theorem nftStep_char (f : NftMetadata) (out : NftOutput) (n : OwnedNft) :
    nftStep (some f) out n = .ok (if nftMatchB f n then applyMatch out n else out) := by
  cases hmd : n.rawMetadata with
  | none =>
    cases ht : jsTruthy (jsGet f "tokenId") with
    | false => simp [nftStep, nftMatchB, applyMatch, hmd, ht]
    | true =>
      cases he : (n.tokenId == jsToStr (jsGet f "tokenId")) with
      | false => simp [nftStep, nftMatchB, applyMatch, hmd, ht, he]
      | true => simp [nftStep, nftMatchB, applyMatch, hmd, ht, he]
  | some md =>
    cases hp : filterNFTMetadataP md f with
    | false =>
      cases ht : jsTruthy (jsGet f "tokenId") with
      | false =>
        simp [nftStep, nftMatchB, applyMatch, hmd, ht, filterNFTMetadata_some, hp, Except.map]
      | true =>
        simp [nftStep, nftMatchB, applyMatch, hmd, ht, filterNFTMetadata_some, hp, Except.map]
    | true =>
      cases ht : jsTruthy (jsGet f "tokenId") with
      | false =>
        simp [nftStep, nftMatchB, applyMatch, hmd, ht, filterNFTMetadata_some, hp, Except.map]
      | true =>
        cases he : (n.tokenId == jsToStr (jsGet f "tokenId")) with
        | false =>
          simp [nftStep, nftMatchB, applyMatch, hmd, ht, he, filterNFTMetadata_some, hp, Except.map]
        | true =>
          simp [nftStep, nftMatchB, applyMatch, hmd, ht, he, filterNFTMetadata_some, hp, Except.map]

/-! ## Claims C1–C4: the metadata matcher -/

/-- Helper: a single failing top-level filter entry forces the top-level
loop to `false`. -/
theorem topLevelCheckP_false_of_mem {r : NftMetadata} {l : List (String × Value)}
    {k : String} {v : Value} (hmem : (k, v) ∈ l)
    (hne : strictEq (jsGet r (lowerStr k)) v = false) :
    topLevelCheckP r l = false := by
  induction l with
  | nil => cases hmem
  | cons kv rest ih =>
    obtain ⟨k0, v0⟩ := kv
    rcases List.mem_cons.mp hmem with heq | hmem'
    · injection heq with h1 h2
      subst h1; subst h2
      simp [topLevelCheckP, hne]
    · simp only [topLevelCheckP]
      split
      · exact ih hmem'
      · rfl

/-- Claim C1, counterexample: against an absent record, the matcher applied
with the empty filter (no top-level fields, no attributes list) returns
`false`, not `true` — the `!filterMetadata` shortcut does not fire for an
empty object, and the line-61 sanity check rejects the absent record. -/
theorem claim_C1_counterexample :
    filterNFTMetadata none (some ⟨[], none⟩) = .ok false ∧
    filterNFTMetadata none (some ⟨[], none⟩) ≠ .ok true :=
  ⟨rfl, fun h => nomatch h⟩

/-- Claim C1 as amended: with an absent filter the matcher returns `true`
for every record, including an absent one; with an empty filter it returns
`true` for every present record, but `false` for an absent record. -/
theorem claim_C1 :
    (∀ r : Option NftMetadata, filterNFTMetadata r none = .ok true) ∧
    (∀ m : NftMetadata, filterNFTMetadata (some m) (some ⟨[], none⟩) = .ok true) ∧
    filterNFTMetadata none (some ⟨[], none⟩) = .ok false := by
  refine ⟨fun r => rfl, fun m => ?_, rfl⟩
  rw [filterNFTMetadata_some]
  simp [filterNFTMetadataP, topLevel, topLevelCheckP]

/-- Claim C2, counterexample: top-level keys are NOT compared
case-insensitively against the record's field names — only the filter's key
is lowercased.  A record field `COLOR = "Red"` and a filter field
`Color = "Red"` have case-insensitively equal names and strictly equal
values, yet the matcher returns `false`, where the claim requires `true`. -/
theorem claim_C2_counterexample :
    filterNFTMetadata (some ⟨[("COLOR", .str "Red")], none⟩)
      (some ⟨[("Color", .str "Red")], none⟩) = .ok false ∧
    lowerStr "Color" = lowerStr "COLOR" ∧
    strictEq (.str "Red") (.str "Red") = true := by
  refine ⟨rfl, rfl, rfl⟩

/-- Claim C2 as amended: the matcher lowercases each top-level filter key
and reads the record field of exactly that lowercased name (an absent field
reads as `undefined`), requiring strict equality with the filter's value.
So (1) any filter entry whose strict comparison fails forces the result
`false`, and (2) for a filter with a single top-level field `(k, v)` and no
attributes list, the result against a present record is exactly the strict
comparison of the record's field named `k.toLowerCase()` with `v`,
independent of all other fields. -/
theorem claim_C2 :
    (∀ (r fm : NftMetadata) (k : String) (v : Value),
        (k, v) ∈ topLevel fm → strictEq (jsGet r (lowerStr k)) v = false →
        filterNFTMetadata (some r) (some fm) = .ok false) ∧
    (∀ (r : NftMetadata) (k : String) (v : Value), k ≠ "attributes" →
        filterNFTMetadata (some r) (some ⟨[(k, v)], none⟩) =
          .ok (strictEq (jsGet r (lowerStr k)) v)) := by
  constructor
  · intro r fm k v hmem hne
    rw [filterNFTMetadata_some]
    simp [filterNFTMetadataP, topLevelCheckP_false_of_mem hmem hne]
  · intro r k v hk
    rw [filterNFTMetadata_some]
    have htl : topLevel ⟨[(k, v)], none⟩ = [(k, v)] := by
      simp [topLevel, hk]
    cases hs : strictEq (jsGet r (lowerStr k)) v <;>
      simp [filterNFTMetadataP, htl, topLevelCheckP, hs]

/-- Witness for the amended claim C2: a record holding `color = "Red"`
(lowercase field name) matches the single-field filter `Color = "Red"`. -/
theorem claim_C2_witness :
    filterNFTMetadata (some ⟨[("color", .str "Red")], none⟩)
      (some ⟨[("Color", .str "Red")], none⟩) = .ok true := by
  exact claim_C2.2 ⟨[("color", .str "Red")], none⟩ "Color" (.str "Red") (by decide)

/-- Claim C3, counterexample: with an absent record and a filter that has a
non-empty attributes list (longer than the absent record's), the claim
requires the result `false`; but when that filter also has a top-level
field, the matcher faults (reading `nftMetadata[k.toLowerCase()]` of an
absent record throws a `TypeError`) before the length rejection runs. -/
theorem claim_C3_counterexample :
    filterNFTMetadata none (some ⟨[("a", .null)], some [⟨"t", .str "v"⟩]⟩) = .error () ∧
    filterNFTMetadata none (some ⟨[("a", .null)], some [⟨"t", .str "v"⟩]⟩) ≠ .ok false :=
  ⟨rfl, fun h => nomatch h⟩

/-- Claim C3 as amended: a filter whose attributes list is strictly longer
than the record's is rejected with `false` regardless of attribute content,
before any attribute content is compared — for every present record (part
1), for an absent record when the filter has no top-level fields (part 2),
and for a present record without attributes (part 3).  The one exception,
forced by the counterexample, is an absent record facing a filter that also
has top-level fields, where the matcher faults instead of returning. -/
theorem claim_C3 :
    (∀ (r fm : NftMetadata) (ra fa : List NftAttr),
        r.attributes = some ra → fm.attributes = some fa → ra.length < fa.length →
        filterNFTMetadata (some r) (some fm) = .ok false) ∧
    (∀ (fm : NftMetadata) (fa : List NftAttr),
        fm.attributes = some fa → 0 < fa.length → topLevel fm = [] →
        filterNFTMetadata none (some fm) = .ok false) ∧
    (∀ (r fm : NftMetadata) (fa : List NftAttr),
        r.attributes = none → fm.attributes = some fa → 0 < fa.length →
        filterNFTMetadata (some r) (some fm) = .ok false) := by
  refine ⟨?_, ?_, ?_⟩
  · intro r fm ra fa hra hfa hlen
    rw [filterNFTMetadata_some]
    cases h : topLevelCheckP r (topLevel fm)
    · simp [filterNFTMetadataP, h]
    · have h1 : 0 < fa.length := Nat.lt_of_le_of_lt (Nat.zero_le _) hlen
      simp [filterNFTMetadataP, h, hra, hfa, h1, hlen]
  · intro fm fa hfa hpos htl
    simp [filterNFTMetadata, htl, topLevelCheck, hfa, hpos]
  · intro r fm fa hra hfa hpos
    rw [filterNFTMetadata_some]
    cases h : topLevelCheckP r (topLevel fm)
    · simp [filterNFTMetadataP, h]
    · simp [filterNFTMetadataP, h, hra, hfa, hpos]

/-- Witness for the amended claim C3, on the spec's own example shapes: a
3-entry filter attributes list against a 2-entry record list is rejected
even though every filter attribute individually matches; an absent record
and a record without attributes are rejected against a filter with a
non-empty attributes list and no top-level fields. -/
theorem claim_C3_witness :
    filterNFTMetadata
      (some ⟨[], some [⟨"a", .str "1"⟩, ⟨"b", .str "2"⟩]⟩)
      (some ⟨[], some [⟨"a", .str "1"⟩, ⟨"b", .str "2"⟩, ⟨"c", .str "3"⟩]⟩) = .ok false ∧
    filterNFTMetadata none (some ⟨[], some [⟨"t", .str "v"⟩]⟩) = .ok false ∧
    filterNFTMetadata (some ⟨[], none⟩) (some ⟨[], some [⟨"t", .str "v"⟩]⟩) = .ok false := by
  refine ⟨?_, ?_, ?_⟩
  · exact claim_C3.1 _ _ _ _ rfl rfl (by decide)
  · exact claim_C3.2.1 _ _ rfl (by decide) (by decide)
  · exact claim_C3.2.2 _ _ _ rfl rfl (by decide)

/-- Claim C4, counterexample: the claim requires the matcher to fail when
the record's trait map does not CONTAIN a filter trait name, but a filter
attribute whose value is `null` is accepted against an absent trait — the
missing-key lookup yields `undefined` and JS `undefined == null` holds, so
the matcher returns `true`. -/
theorem claim_C4_counterexample :
    filterNFTMetadata (some ⟨[], some [⟨"y", .str "a"⟩]⟩)
      (some ⟨[], some [⟨"x", .null⟩]⟩) = .ok true ∧
    nestedLookup [⟨"y", .str "a"⟩] "x" = .undefined := by
  refine ⟨rfl, rfl⟩

/-- Claim C4 as amended: with both attribute lists present the matcher maps
each lowercased record trait name to the value of its LAST occurrence, and
for every filter pair compares the lookup of the lowercased filter trait
name — `undefined` when absent — loosely against the pair's value (so a
`null`/`undefined`-valued filter pair is satisfied by an absent trait).
Part 1: any failing pair forces `false`.  Part 2: the
`{attributes: [{Color, Red}]}` instance holds iff the record's attribute
list is non-empty and the last trait whose lowercased name is `"color"` has
value loosely equal to `"Red"`.  Parts 3–4: the instance is `false` when
the record's attributes (or the record itself) are absent. -/
theorem claim_C4 :
    (∀ (r fm : NftMetadata) (ra fa : List NftAttr),
        r.attributes = some ra → fm.attributes = some fa →
        attrsCheck ra fa = false →
        filterNFTMetadata (some r) (some fm) = .ok false) ∧
    (∀ (r : NftMetadata) (ra : List NftAttr), r.attributes = some ra →
        (filterNFTMetadata (some r) (some ⟨[], some [⟨"Color", .str "Red"⟩]⟩) = .ok true ↔
          0 < ra.length ∧ looseEq (nestedLookup ra "color") (.str "Red") = true)) ∧
    (∀ r : NftMetadata, r.attributes = none →
        filterNFTMetadata (some r) (some ⟨[], some [⟨"Color", .str "Red"⟩]⟩) = .ok false) ∧
    filterNFTMetadata none (some ⟨[], some [⟨"Color", .str "Red"⟩]⟩) = .ok false := by
  have hlow : lowerStr "Color" = "color" := rfl
  refine ⟨?_, ?_, ?_, rfl⟩
  · intro r fm ra fa hra hfa hac
    rw [filterNFTMetadata_some]
    cases h : topLevelCheckP r (topLevel fm)
    · simp [filterNFTMetadataP, h]
    · cases fa with
      | nil => simp [attrsCheck_nil] at hac
      | cons a fas =>
        by_cases hlen : fas.length + 1 > ra.length
        · simp [filterNFTMetadataP, h, hra, hfa, hlen]
        · simp [filterNFTMetadataP, h, hra, hfa, hlen, hac]
  · intro r ra hra
    rw [filterNFTMetadata_some]
    cases ra with
    | nil => simp [filterNFTMetadataP, topLevel, topLevelCheckP, hra]
    | cons a ras =>
      simp [filterNFTMetadataP, topLevel, topLevelCheckP, hra, attrsCheck, hlow]
  · intro r hra
    rw [filterNFTMetadata_some]
    simp [filterNFTMetadataP, topLevel, topLevelCheckP, hra]

/-- Witness for the amended claim C4: a record whose attributes hold
`Color = "Blue"` followed by `COLOR = "Red"` matches the
`{attributes: [{Color, Red}]}` filter — the later duplicate wins — and the
same filter rejects a record with attributes `[{Color, Blue}]`. -/
theorem claim_C4_witness :
    filterNFTMetadata (some ⟨[], some [⟨"Color", .str "Blue"⟩, ⟨"COLOR", .str "Red"⟩]⟩)
      (some ⟨[], some [⟨"Color", .str "Red"⟩]⟩) = .ok true ∧
    filterNFTMetadata (some ⟨[], some [⟨"Color", .str "Blue"⟩]⟩)
      (some ⟨[], some [⟨"Color", .str "Red"⟩]⟩) = .ok false := by
  constructor
  · exact (claim_C4.2.1 _ _ rfl).mpr ⟨by decide, by decide⟩
  · exact claim_C4.1 _ _ _ _ rfl rfl (by decide)

/-! ## Claim C5: the pagination drain -/

/-- Unfolding of the drain loop at a cursorless response: the loop stops. -/
theorem drainGo_nokey {T : Type} (fetch : Option String → TransfersPage T)
    (fuel : Nat) (response : TransfersPage T) (transfers : List T)
    (calls : List (Option String)) (h : response.pageKey = none) :
    drainGo fetch fuel response transfers calls = some (transfers, calls) := by
  obtain ⟨ts, pk⟩ := response
  dsimp only at h
  subst h
  cases fuel <;> rfl

/-- Unfolding of the drain loop at a response carrying a cursor: the loop
fetches the next page under that cursor. -/
theorem drainGo_key {T : Type} (fetch : Option String → TransfersPage T)
    (fuel : Nat) (response : TransfersPage T) (transfers : List T)
    (calls : List (Option String)) {k : String} (h : response.pageKey = some k) :
    drainGo fetch (fuel + 1) response transfers calls =
      drainGo fetch fuel (fetch (some k))
        (transfers ++ (fetch (some k)).transfers) (calls ++ [some k]) := by
  obtain ⟨ts, pk⟩ := response
  dsimp only at h
  subst h
  rfl

/-- Helper: running the drain loop from any accumulator against a source
that serves the page list `ps` from cursor `q` appends all remaining pages'
items and logs one call per remaining page, each carrying the previous
response's cursor. -/
theorem drainGo_serves {T : Type} {fetch : Option String → TransfersPage T} :
    ∀ {q : Option String} {ps : List (TransfersPage T)}, Serves fetch q ps →
    ∀ (acc : List T) (calls : List (Option String)) (fuel : Nat), ps.length ≤ fuel + 1 →
    drainGo fetch fuel (fetch q) (acc ++ (fetch q).transfers) calls =
      some (acc ++ (ps.map (fun p => p.transfers)).flatten,
            calls ++ ps.dropLast.map (fun p => p.pageKey)) := by
  intro q ps h
  induction h with
  | last hfq hkey =>
    intro acc calls fuel hfuel
    rw [hfq, drainGo_nokey fetch fuel _ _ calls hkey]
    simp
  | cons hfq hkey hserves ih =>
    rename_i q' p k ps'
    intro acc calls fuel hfuel
    have hpos : 0 < ps'.length := List.length_pos.mpr hserves.ne_nil
    cases fuel with
    | zero =>
      simp only [List.length_cons] at hfuel
      omega
    | succ fuel' =>
      rw [hfq, drainGo_key fetch fuel' p _ _ hkey]
      have step := ih (acc ++ p.transfers) (calls ++ [some k]) fuel' (by
        simp only [List.length_cons] at hfuel
        omega)
      rw [step]
      have hdl : (p :: ps').dropLast = p :: ps'.dropLast :=
        List.dropLast_cons_of_ne_nil hserves.ne_nil
      simp [hdl, hkey, List.append_assoc]

/-- Claim C5: for every paged source (described by the page list it serves
starting from the cursorless initial query) and enough fuel, the drain
returns the concatenation of all pages' items in page order, and logs
exactly one fetch per page — the first with no cursor and each later one
with the previous page's cursor. -/
theorem claim_C5 {T : Type} (fetch : Option String → TransfersPage T)
    (ps : List (TransfersPage T)) (fuel : Nat)
    (hserves : Serves fetch none ps) (hfuel : ps.length ≤ fuel + 1) :
    drainTransfers fetch fuel =
      some ((ps.map (fun p => p.transfers)).flatten,
            none :: ps.dropLast.map (fun p => p.pageKey)) ∧
    (none :: ps.dropLast.map (fun p => p.pageKey)).length = ps.length := by
  constructor
  · have h := drainGo_serves hserves [] [none] fuel hfuel
    simpa [drainTransfers] using h
  · have hpos : 0 < ps.length := List.length_pos.mpr hserves.ne_nil
    simp only [List.length_cons, List.length_map, List.length_dropLast]
    omega

/-- The spec's 3-page mock source: pages of sizes 2, 2, 1, cursors on pages
1–2, none on page 3. -/
def fetchMock : Option String → TransfersPage Nat
  | none => ⟨[1, 2], some "k1"⟩
  | some s =>
    if s = "k1" then ⟨[3, 4], some "k2"⟩
    else if s = "k2" then ⟨[5], none⟩
    else ⟨[], none⟩

/-- A single-page source with no cursor. -/
def fetchOnce : Option String → TransfersPage Nat
  | _ => ⟨[7], none⟩

/-- Witness for claim C5: the 3-page mock drains to 5 items in page order
with exactly 3 calls carrying `none`, `"k1"`, `"k2"`; the single-page
source drains with exactly one call. -/
theorem claim_C5_witness :
    drainTransfers fetchMock 3 = some ([1, 2, 3, 4, 5], [none, some "k1", some "k2"]) ∧
    drainTransfers fetchOnce 3 = some ([7], [none]) := by
  constructor
  · exact (claim_C5 fetchMock [⟨[1, 2], some "k1"⟩, ⟨[3, 4], some "k2"⟩, ⟨[5], none⟩] 3
      (Serves.cons rfl rfl (Serves.cons rfl rfl (Serves.last rfl rfl))) (by decide)).1
  · exact (claim_C5 fetchOnce [⟨[7], none⟩] 3 (Serves.last rfl rfl) (by decide)).1

/-! ## Claim C6: deployment-history reduction -/

/-- Claim C6: the deployment flow yields exactly one entry per transfer
whose `to` is null, in the original relative order, each entry carrying the
wallet as `from`, `null` as `to`, `0` as value, and the hash of the receipt
fetched (by position) for that transfer's hash. -/
theorem claim_C6 (walletAddress : String) (getReceipt : String → Option TxReceipt)
    (transfers : List AssetTransfer) :
    deploymentTxns walletAddress getReceipt transfers =
      (transfers.filter (fun t => t.toAddr.isNone)).map
        (fun t => ⟨walletAddress, none,
          (getReceipt t.hash).map (fun r => r.transactionHash), 0⟩) ∧
    (deploymentTxns walletAddress getReceipt transfers).length =
      transfers.countP (fun t => t.toAddr.isNone) ∧
    ∀ e ∈ deploymentTxns walletAddress getReceipt transfers,
      e.fromAddr = walletAddress ∧ e.toAddr = none ∧ e.value = 0 := by
  have h1 : deploymentTxns walletAddress getReceipt transfers =
      (transfers.filter (fun t => t.toAddr.isNone)).map
        (fun t => ⟨walletAddress, none,
          (getReceipt t.hash).map (fun r => r.transactionHash), 0⟩) := by
    simp [deploymentTxns, List.map_map, Function.comp]
  refine ⟨h1, ?_, ?_⟩
  · rw [h1, List.length_map, ← List.countP_eq_length_filter]
  · rw [h1]
    intro e he
    simp only [List.mem_map] at he
    obtain ⟨t, _, rfl⟩ := he
    exact ⟨rfl, rfl, rfl⟩

/-- The spec's deployment example: 4 transfers, of which the 2nd and 4th
have a null `to`. -/
def transfersEx : List AssetTransfer :=
  [⟨"w", some "a", "h1"⟩, ⟨"w", none, "h2"⟩, ⟨"w", some "b", "h3"⟩, ⟨"w", none, "h4"⟩]

/-- Receipts for the deployment example. -/
def receiptsEx : String → Option TxReceipt :=
  fun h => if h = "h2" then some ⟨"r2"⟩ else if h = "h4" then some ⟨"r4"⟩ else none

/-- Witness for claim C6: the 4-transfer example yields exactly the two
null-`to` transfers' entries, in order, and the entry fields are as
claimed. -/
theorem claim_C6_witness :
    deploymentTxns "w" receiptsEx transfersEx =
      [⟨"w", none, some "r2", 0⟩, ⟨"w", none, some "r4", 0⟩] ∧
    ((⟨"w", none, some "r2", 0⟩ : DeploymentTxn).fromAddr = "w" ∧
      (⟨"w", none, some "r2", 0⟩ : DeploymentTxn).toAddr = none ∧
      (⟨"w", none, some "r2", 0⟩ : DeploymentTxn).value = 0) := by
  exact ⟨by decide, (claim_C6 "w" receiptsEx transfersEx).2.2 _ (by decide)⟩

/-! ## Claim C7: the ERC20 balance flow -/

/-- Claim C7, counterexample: a token whose metadata reports `decimals = 0`
(a known value, not an unknown one) and whose balance entry is present with
balance `0x5` is reported as `{0, 0}` — the truthiness test
`metadata.decimals` also rejects the legitimate value `0`, so the flow does
not return the matching entry's balance `5` paired with decimals `0`. -/
theorem claim_C7_counterexample :
    erc20 (some "w") "c" ⟨some 0⟩ [⟨"c", some "0x5"⟩] = ⟨0, 0⟩ ∧
    erc20 (some "w") "c" ⟨some 0⟩ [⟨"c", some "0x5"⟩] ≠ ⟨5, 0⟩ ∧
    jsBigInt "0x5" = 5 := by
  exact ⟨by decide, by decide, by decide⟩

/-- Claim C7 as amended: the flow returns `{0, 0}` without raising an error
whenever the metadata's decimals are falsy — `null` (unknown) OR the
legitimate value `0` — or when no entry of the balance list carries the
queried contract address together with a truthy (non-null, non-empty)
balance string, which covers both an absent contract and a contract present
only with a null/empty balance; otherwise it returns the FIRST entry
matching the contract with a truthy balance, its parsed balance paired with
the decimals — entries matching the contract with a falsy balance are
skipped, not reported.  The three cases are exhaustive for a present
wallet. -/
theorem claim_C7 :
    (∀ (w c : String) (meta : TokenMetadataResponse) (tbs : List TokenBalanceEntry),
        decTruthy meta.decimals = false →
        erc20 (some w) c meta tbs = ⟨0, 0⟩) ∧
    (∀ (w c : String) (meta : TokenMetadataResponse) (tbs : List TokenBalanceEntry),
        tbs.find? (fun tb =>
          tb.contractAddress == c && tokenBalTruthy tb.tokenBalance) = none →
        erc20 (some w) c meta tbs = ⟨0, 0⟩) ∧
    (∀ (w c : String) (meta : TokenMetadataResponse) (tbs : List TokenBalanceEntry)
        (tb : TokenBalanceEntry) (d : Int),
        meta.decimals = some d → d ≠ 0 →
        tbs.find? (fun tb =>
          tb.contractAddress == c && tokenBalTruthy tb.tokenBalance) = some tb →
        erc20 (some w) c meta tbs = ⟨jsBigInt (tb.tokenBalance.getD ""), d⟩) := by
  refine ⟨?_, ?_, ?_⟩
  · intro w c meta tbs hdec
    simp only [erc20]
    induction tbs with
    | nil => rfl
    | cons tb rest ih => simp [erc20Loop, hdec, ih]
  · intro w c meta tbs hfind
    simp only [erc20]
    induction tbs with
    | nil => rfl
    | cons tb0 rest ih =>
      by_cases hp : (tb0.contractAddress == c && tokenBalTruthy tb0.tokenBalance) = true
      · simp only [List.find?_cons, hp] at hfind
        exact Option.noConfusion hfind
      · rw [Bool.not_eq_true] at hp
        simp only [List.find?_cons, hp] at hfind
        simp only [erc20Loop, hp, Bool.false_and, Bool.false_eq_true, if_false]
        exact ih hfind
  · intro w c meta tbs tb d hd hd0 hfind
    simp only [erc20, hd]
    induction tbs with
    | nil => simp at hfind
    | cons tb0 rest ih =>
      by_cases hp : (tb0.contractAddress == c && tokenBalTruthy tb0.tokenBalance) = true
      · simp only [List.find?_cons, hp] at hfind
        injection hfind with hfind
        subst hfind
        have hdt : decTruthy (some d) = true := by simp [decTruthy, hd0]
        simp [erc20Loop, hp, hdt]
      · rw [Bool.not_eq_true] at hp
        simp only [List.find?_cons, hp] at hfind
        simp only [erc20Loop, hp, Bool.false_and, Bool.false_eq_true, if_false]
        exact ih hfind

/-- Witness for the amended claim C7: the first contract entry with a
truthy balance is returned even when an earlier contract entry with a null
balance precedes it; a contract present only with a null balance yields
`{0, 0}` despite known decimals; and the counterexample input (decimals
`0`, balance present) evaluates to `{0, 0}` through the falsy-decimals
case. -/
theorem claim_C7_witness :
    erc20 (some "w") "c" ⟨some 6⟩
      [⟨"other", some "0x1"⟩, ⟨"c", none⟩, ⟨"c", some "0x5"⟩] = ⟨5, 6⟩ ∧
    erc20 (some "w") "c" ⟨some 6⟩ [⟨"c", none⟩] = ⟨0, 0⟩ ∧
    erc20 (some "w") "c" ⟨some 0⟩ [⟨"c", some "0x5"⟩] = ⟨0, 0⟩ := by
  refine ⟨?_, ?_, ?_⟩
  · exact claim_C7.2.2 "w" "c" ⟨some 6⟩ _ ⟨"c", some "0x5"⟩ 6 rfl (by decide) (by decide)
  · exact claim_C7.2.1 "w" "c" ⟨some 6⟩ _ (by decide)
  · exact claim_C7.1 "w" "c" ⟨some 0⟩ _ (by decide)

/-! ## Claims C8–C10: the NFT inventory flow -/

/-- Claim C8: an owned NFT that fully matches the filter but whose reported
balance does not coerce to a valid number contributes nothing to the
aggregate balance, yet is not excluded from `nftData` for this reason — its
metadata record (when present) is still appended. -/
theorem claim_C8 (f : NftMetadata) (out : NftOutput) (n : OwnedNft)
    (hmatch : nftMatchB f n = true) (hnan : strToNumInt n.balance = none) :
    nftStep (some f) out n =
      .ok ⟨out.balance,
        out.nftData ++ (match n.rawMetadata with
          | some md => [pushedRecord n md]
          | none => [])⟩ := by
  rw [nftStep_char, if_pos hmatch]
  cases hr : n.rawMetadata <;> simp [applyMatch, hnan, hr]

/-- The malformed-balance NFT used as the claim C8 witness. -/
def nftNanBal : OwnedNft := ⟨"1", "abc", "ERC721", some ⟨[("name", .str "x")], none⟩⟩

/-- Witness for claim C8: the NFT with unparseable balance `"abc"` matches
the empty filter; the aggregate stays `0` while its record is appended. -/
theorem claim_C8_witness :
    nftStep (some ⟨[], none⟩) ⟨0, []⟩ nftNanBal =
      .ok ⟨0, [pushedRecord nftNanBal ⟨[("name", .str "x")], none⟩]⟩ := by
  exact claim_C8 ⟨[], none⟩ ⟨0, []⟩ nftNanBal (by decide) (by decide)

/-- Claim C9, counterexample: a filter whose tokenId is the number `0` —
specified, but falsy — skips the token-id equality requirement entirely: an
NFT with token id `"5"` and no metadata is counted as a match (its balance
is added), although `"5"` differs from the string conversion of `0`. -/
theorem claim_C9_counterexample :
    nftFlow (some "w") [⟨"5", "1", "ERC721", none⟩]
      (some ⟨[("tokenId", .num 0)], none⟩) = .ok ⟨1, []⟩ ∧
    ("5" : String) ≠ jsToStr (.num 0) := by
  exact ⟨rfl, by decide⟩

/-- Claim C9 as amended: whenever the filter's tokenId field is truthy
(present and not `0`, `""`, `false`, `null` or `NaN`), an NFT whose token
id differs from the string conversion of the filter's tokenId is not
counted as a match — the loop iteration leaves the output unchanged. -/
theorem claim_C9 (f : NftMetadata) (out : NftOutput) (n : OwnedNft)
    (htruthy : jsTruthy (jsGet f "tokenId") = true)
    (hne : (n.tokenId == jsToStr (jsGet f "tokenId")) = false) :
    nftStep (some f) out n = .ok out := by
  have hm : nftMatchB f n = false := by
    simp [nftMatchB, htruthy, hne]
  rw [nftStep_char, hm]
  simp

/-- Witness for the amended claim C9: with the filter tokenId `"7"` the NFT
with token id `"5"` is rejected and the output is unchanged. -/
theorem claim_C9_witness :
    nftStep (some ⟨[("tokenId", .str "7")], none⟩) ⟨0, []⟩ ⟨"5", "1", "ERC721", none⟩ =
      .ok ⟨0, []⟩ := by
  exact claim_C9 ⟨[("tokenId", .str "7")], none⟩ ⟨0, []⟩ ⟨"5", "1", "ERC721", none⟩
    (by decide) (by decide)

/-- Claim C10: (1) for an owned NFT without raw metadata the loop iteration
depends on nothing in the filter but its tokenId field — the metadata
matcher is skipped; (2) such an NFT, when it counts as a match, adds its
coerced numeric balance to the aggregate while appending nothing to
`nftData`; (3) hence the returned balance can exceed the number of
`nftData` entries, as on a concrete one-NFT run with the empty filter. -/
theorem claim_C10 :
    (∀ (f₁ f₂ : NftMetadata) (out : NftOutput) (n : OwnedNft),
        n.rawMetadata = none → jsGet f₁ "tokenId" = jsGet f₂ "tokenId" →
        nftStep (some f₁) out n = nftStep (some f₂) out n) ∧
    (∀ (f : NftMetadata) (out : NftOutput) (n : OwnedNft) (v : Int),
        n.rawMetadata = none → nftMatchB f n = true → strToNumInt n.balance = some v →
        nftStep (some f) out n = .ok ⟨out.balance + v, out.nftData⟩) ∧
    (nftFlow (some "w") [⟨"1", "1", "ERC721", none⟩] (some ⟨[], none⟩) = .ok ⟨1, []⟩ ∧
      (1 : Int) > (([] : List NftMetadata).length : Int)) := by
  refine ⟨?_, ?_, rfl, by decide⟩
  · intro f₁ f₂ out n hmd htid
    have hm : nftMatchB f₁ n = nftMatchB f₂ n := by
      simp [nftMatchB, hmd, htid]
    rw [nftStep_char, nftStep_char, hm]
  · intro f out n v hmd hmatch hv
    rw [nftStep_char, if_pos hmatch]
    simp [applyMatch, hv, hmd]

/-- Witness for claim C10: a metadata-less NFT under the empty filter adds
its balance `1` and appends nothing. -/
theorem claim_C10_witness :
    nftStep (some ⟨[], none⟩) ⟨0, []⟩ ⟨"1", "1", "ERC721", none⟩ = .ok ⟨1, []⟩ := by
  exact claim_C10.2.1 ⟨[], none⟩ ⟨0, []⟩ ⟨"1", "1", "ERC721", none⟩ 1 rfl
    (by decide) (by decide)

end Alchemy
